import Mathlib

/-!
Shallow embedding of the "Orchestrate" event-management backend
(Express/MongoDB controllers) and proofs about its behavior.

Conventions of the embedding:
* A MongoDB collection is a `List` of documents; document ids are the
  24-hex-character `ObjectId` strings, kept as `String`.
* `findById` is `List.find?` on the id field; `findByIdAndUpdate`/`save`
  update the matching document in place (ids are unique in a collection,
  so updating every match coincides with updating the found document).
* Wall-clock timestamps (`new Date()`) are passed in explicitly as `Nat`
  (epoch milliseconds); `Date.prototype.toISOString` is order-preserving,
  so comparing the `Nat`s models comparing the stored ISO strings.
* A JavaScript value that may be `undefined` is an `Option`; the JS
  truthiness test `!x` on a string-valued field is `(x.getD "") = ""`
  (both `undefined` and the empty string are falsy).
* HTTP responses are small result structures holding the status code and
  the serialized payload fields the controllers actually send.
-/

namespace Orchestrate

/-- JS truthiness for an optional string: `undefined` and `""` are falsy. -/
def strFalsy (o : Option String) : Bool := (o.getD "") == ""

/-- A hexadecimal digit, as accepted by `mongoose.Types.ObjectId.isValid`
on 24-character strings. -/
def isHexDigit (c : Char) : Bool :=
  c.isDigit || ('a' ≤ c && c ≤ 'f') || ('A' ≤ c && c ≤ 'F')

/-- Embeds `mongoose.Types.ObjectId.isValid` on the string inputs the routes
receive: a 24-character hexadecimal string. -/
def isValidObjectId (s : String) : Bool :=
  s.length == 24 && s.toList.all isHexDigit

/-- A task comment subdocument: `{ author, message, timestamp }`
(`models/Task.js`, `comments` array schema). -/
structure TaskComment where
  author : String
  message : String
  timestamp : Nat
deriving DecidableEq

/-- A `Task` document (`models/Task.js`).  `createdAt` comes from the
schema's `timestamps: true` option. -/
structure Task where
  id : String
  taskName : String
  description : String
  eventName : String
  eventID : String
  status : String
  budget : Option Int
  creator : String
  assignee : String
  deadline : Option Nat
  comments : List TaskComment
  createdAt : Nat
deriving DecidableEq

/-- The `status` enum declared by the task schema
(`models/Task.js`, line 29). -/
def statusEnum : List String := ["Pending", "In Progress", "Completed"]

/-- An `Event` document (`models/Event.js`). -/
structure Event where
  id : String
  eventName : String
  eventType : String
  date : Option Nat
  venue : Option String
  description : String
  availableSlots : Option Nat
  ticketPrice : Option Nat
  totalBudget : Option Int
  attendees : List String
  team : String
  isPaid : Bool
  creator : String
deriving DecidableEq

/-- An `Employee` document (`models/Employee.js`). -/
structure Employee where
  id : String
  name : String
  email : String
  password : String
  team : String
  role : String
deriving DecidableEq

/-- Embeds `Task.findById`: first document whose `_id` matches. -/
def findTask (store : List Task) (taskId : String) : Option Task :=
  store.find? (fun t => t.id == taskId)

/-- Result of the status-update endpoint: HTTP code, the `task` field of
the JSON body when one is sent, and the collection after the call. -/
structure UpdateResult where
  code : Nat
  task : Option Task
  store : List Task
deriving DecidableEq

/-- A task with its `status` field replaced. -/
def setStatus (t : Task) (s : String) : Task := { t with status := s }

/-- Embeds `Task.findByIdAndUpdate(taskId, { $set: { status } }, { new: true })`:
updates the matching document and returns the updated document, or
`none` when no document matches.  Mongoose runs no schema validators on
this update path (`runValidators` defaults to `false`), so the raw
string is stored. -/
def findByIdAndUpdateStatus (store : List Task) (taskId status : String) :
    Option Task × List Task :=
  match findTask store taskId with
  | none => (none, store)
  | some t =>
      (some (setStatus t status),
       store.map (fun u => if u.id == taskId then setStatus u status else u))

/-- Embeds `updateTaskStatus` (`controllers/taskController.js`, lines 33-67):
400 when the task id or status is missing/empty or the id is not a valid
`ObjectId`, 404 when no task matches, otherwise stores the supplied
status verbatim and answers 200 with the updated document. -/
def updateTaskStatus (taskId status : Option String) (store : List Task) :
    UpdateResult :=
  if strFalsy taskId || strFalsy status then
    { code := 400, task := none, store := store }
  else if !isValidObjectId (taskId.getD "") then
    { code := 400, task := none, store := store }
  else
    match findByIdAndUpdateStatus store (taskId.getD "") (status.getD "") with
    | (none, _) => { code := 404, task := none, store := store }
    | (some t, store') => { code := 200, task := some t, store := store' }

/-- Lexicographic order on `Nat` triples, the comparison a MongoDB
ascending compound sort performs on our encoded sort keys. -/
def lex3 (a b : Nat × Nat × Nat) : Prop :=
  a.1 < b.1 ∨ (a.1 = b.1 ∧ (a.2.1 < b.2.1 ∨ (a.2.1 = b.2.1 ∧ a.2.2 ≤ b.2.2)))

instance : DecidableRel lex3 := fun a b => by unfold lex3; exact inferInstance

/-- Sort key for `.sort({ deadline: 1, createdAt: 1 })`: in an ascending
Mongo sort, documents with a `null` deadline collate before every
numeric deadline, ties broken by `createdAt`. -/
def taskSortKey (t : Task) : Nat × Nat × Nat :=
  match t.deadline with
  | none => (0, 0, t.createdAt)
  | some d => (1, d, t.createdAt)

/-- The task ordering used by the list endpoints. -/
def taskLE (a b : Task) : Prop := lex3 (taskSortKey a) (taskSortKey b)

instance : DecidableRel taskLE := fun a b => by unfold taskLE; exact inferInstance

instance : IsTotal Task taskLE := ⟨fun a b => by unfold taskLE lex3; omega⟩

instance : IsTrans Task taskLE := ⟨fun a b c => by unfold taskLE lex3; omega⟩

/-- Embeds `.sort({ deadline: 1, createdAt: 1 })` on a task query result. -/
def sortTasks (l : List Task) : List Task := List.insertionSort taskLE l

/-- Sort key for `.sort({ date: 1 })` on events; `null` dates first. -/
def eventSortKey (e : Event) : Nat × Nat × Nat :=
  match e.date with
  | none => (0, 0, 0)
  | some d => (1, d, 0)

/-- The event ordering used by `getEventsByCreator`. -/
def eventDateLE (a b : Event) : Prop := lex3 (eventSortKey a) (eventSortKey b)

instance : DecidableRel eventDateLE := fun a b => by unfold eventDateLE; exact inferInstance

/-- Embeds `.sort({ date: 1 })` on an event query result. -/
def sortEventsByDate (l : List Event) : List Event := List.insertionSort eventDateLE l

/-- Embeds `parseInt(req.query.page) || 1`: `pageParam` is the parsed query
value (`none` when absent or not a number); `0` is falsy in JS, so it
also falls back to page 1. -/
def effPage (pageParam : Option Nat) : Nat :=
  match pageParam with
  | none => 1
  | some 0 => 1
  | some p => p

/-- Result of a task-list endpoint: HTTP code, the task array sent on
200, and the error message sent otherwise. -/
structure TaskListResult where
  code : Nat
  tasks : List Task
  message : String
deriving DecidableEq

/-- Embeds `getTasks` (src/unnamed/part_005, lines 14-48), the creator-facing
task list: 400 without a `user-email` header, otherwise the tasks whose
`creator` equals that email, sorted by `(deadline, createdAt)` and
paginated with a fixed page size of 10 — `.skip((page-1)*10).limit(10)`.
An empty page is still a 200. -/
def getTasks (userEmail : Option String) (pageParam : Option Nat)
    (store : List Task) : TaskListResult :=
  if strFalsy userEmail then
    { code := 400, tasks := [], message := "User email is required in headers" }
  else
    let page := effPage pageParam
    let tasks := ((sortTasks (store.filter (fun t => t.creator == userEmail.getD ""))).drop
        ((page - 1) * 10)).take 10
    { code := 200, tasks := tasks, message := "" }

/-- Embeds `getTasksByAssignee` (`controllers/taskController.js`, lines 5-30):
400 without a `user-email` header; the tasks whose `assignee` equals
that email, sorted by `(deadline, createdAt)`, with no pagination; a
404 with "No tasks found for this employee" when the result is empty. -/
def getTasksByAssignee (userEmail : Option String) (store : List Task) :
    TaskListResult :=
  if strFalsy userEmail then
    { code := 400, tasks := [], message := "User email is required in headers" }
  else
    let tasks := sortTasks (store.filter (fun t => t.assignee == userEmail.getD ""))
    if tasks.length == 0 then
      { code := 404, tasks := [], message := "No tasks found for this employee" }
    else
      { code := 200, tasks := tasks, message := "" }

/-- Embeds `filterTasks` (src/unnamed/part_005, lines 58-79): builds the query
from the `status` and `assignee` query parameters.  The status clause is
added only when the supplied value is truthy AND a member of
`["Pending", "In Progress", "Completed"]`; the assignee clause is added
for any truthy value.  Returns the 200 body. -/
def filterTasks (status assignee : Option String) (store : List Task) :
    List Task :=
  let statusClause : Option String :=
    match status with
    | some s => if s ≠ "" ∧ s ∈ statusEnum then some s else none
    | none => none
  let assigneeClause : Option String :=
    match assignee with
    | some a => if a = "" then none else some a
    | none => none
  store.filter (fun t =>
    (match statusClause with
     | none => true
     | some s => t.status == s) &&
    (match assigneeClause with
     | none => true
     | some a => t.assignee == a))

/-- Result of a comment-append endpoint: HTTP code, the `task` field of
the JSON body (the full updated document) when one is sent, and the
collection after the call. -/
structure CommentResult where
  code : Nat
  task : Option Task
  store : List Task
deriving DecidableEq

/-- Embeds `task.comments.push(c); task.save()`: append the comment to the
matching document (ids are unique). -/
def appendComment (store : List Task) (taskId : String) (c : TaskComment) :
    List Task :=
  store.map (fun u =>
    if u.id == taskId then { u with comments := u.comments ++ [c] } else u)

/-- Embeds `addCommentToTask_Assignee` (`controllers/taskController.js`, lines
95-134): 400 on a malformed id, 400 when the `user-email` header or the
`message` body field is missing/empty, 404 when the task does not
exist; otherwise appends `{ author: userEmail, message, timestamp }`
(the timestamp is `new Date().toISOString()`, passed here as `now`) and
answers 201 with the full updated document. -/
def addCommentToTask_Assignee (taskId : String) (userEmail message : Option String)
    (now : Nat) (store : List Task) : CommentResult :=
  if !isValidObjectId taskId then
    { code := 400, task := none, store := store }
  else if strFalsy userEmail || strFalsy message then
    { code := 400, task := none, store := store }
  else
    match findTask store taskId with
    | none => { code := 404, task := none, store := store }
    | some t =>
        let c : TaskComment :=
          { author := userEmail.getD "", message := message.getD "", timestamp := now }
        { code := 201,
          task := some { t with comments := t.comments ++ [c] },
          store := appendComment store taskId c }

/-- Embeds `addCommentToTask` (src/unnamed/part_005, lines 119-165), the
creator/admin-facing comment endpoint: 400 when `author` or `message`
is missing/empty; it performs no `ObjectId` pre-check, so `findById` on
a malformed id throws a CastError surfaced as 500; 404 when the task
does not exist; otherwise appends `{ author, message, timestamp }` and
answers 201 with the full updated document.  (The source's
`Array.isArray(task.comments)` repair never fires here: `comments` is
always an array in the embedding, as in the schema.) -/
def addCommentToTask (taskId : String) (author message : Option String)
    (now : Nat) (store : List Task) : CommentResult :=
  if strFalsy author || strFalsy message then
    { code := 400, task := none, store := store }
  else if !isValidObjectId taskId then
    { code := 500, task := none, store := store }
  else
    match findTask store taskId with
    | none => { code := 404, task := none, store := store }
    | some t =>
        let c : TaskComment :=
          { author := author.getD "", message := message.getD "", timestamp := now }
        { code := 201,
          task := some { t with comments := t.comments ++ [c] },
          store := appendComment store taskId c }

/-- Result of `getEventsByCreator`: HTTP code, the selected
`(_id, eventName)` projections sent on 200, and the error message. -/
structure EventListResult where
  code : Nat
  events : List (String × String)
  message : String
deriving DecidableEq

/-- Embeds `getEventsByCreator` (src/unnamed/part_005, lines 200-251): 400
without a `user-email` header; otherwise the events whose `creator`
equals that email, sorted by date ascending, paginated with page size
10, projected to `(_id, eventName)`; 404 with "No events found for this
creator" when the page is empty. -/
def getEventsByCreator (userEmail : Option String) (pageParam : Option Nat)
    (store : List Event) : EventListResult :=
  if strFalsy userEmail then
    { code := 400, events := [], message := "User email is required in headers" }
  else
    let page := effPage pageParam
    let evs := ((sortEventsByDate (store.filter (fun e => e.creator == userEmail.getD ""))).drop
        ((page - 1) * 10)).take 10
    let sel := evs.map (fun e => (e.id, e.eventName))
    if sel.length == 0 then
      { code := 404, events := [], message := "No events found for this creator" }
    else
      { code := 200, events := sel, message := "" }

/-- The token of `authRequest.header("Authorization")?.replace("Bearer ", "")`
(`middleware/authenticateUser`, embedded in src/backend/README.md).
JS `replace` with a string pattern replaces the first occurrence; Lean's
`String.replace` replaces every occurrence — they coincide on every
header containing "Bearer " at most once, i.e. on every well-formed
Authorization header. -/
def headerToken (authHeader : Option String) : Option String :=
  authHeader.map (fun h => h.replace "Bearer " "")

/-- Embeds `authRequest.cookies?.token || authRequest.header("Authorization")?...`:
the cookie token when truthy, else the stripped header. -/
def extractToken (cookieToken authHeader : Option String) : Option String :=
  if (cookieToken.getD "") ≠ "" then cookieToken else headerToken authHeader

/-- The identity the middleware attaches to `authRequest.user`. -/
structure AuthUser where
  id : String
  email : String
  name : String
  role : String
  team : String
deriving DecidableEq

/-- Outcome of the authentication middleware: an unauthorized response
(the pipeline halts) or a call of `nextMiddleware` with the user
attached. -/
inductive AuthOutcome where
  | unauthorized (error : String)
  | proceed (user : AuthUser)
deriving DecidableEq

/-- Employee lookup step of the middleware: `Employee.findById(decoded.id)`
followed by attaching `{ id, email, name, role, team }` to the request,
or the 401 "User not found" response. -/
def lookupOutcome (emps : List Employee) (decodedId : String) : AuthOutcome :=
  match emps.find? (fun u => u.id == decodedId) with
  | none => .unauthorized "Unauthorized: User not found."
  | some u =>
      .proceed { id := u.id, email := u.email, name := u.name,
                 role := u.role, team := u.team }

/-- Embedding of `authenticateUser` (src/backend/README.md, lines 45-78).
`verify` stands for `jwt.verify(token, JWT_SECRET)`: it returns the
decoded `id` claim, or `none` when the token is malformed, carries a bad
signature, or is expired — in the source those throw, landing in the
catch block that answers 401 "Invalid or expired token". -/
def authenticateUser (verify : String → Option String) (emps : List Employee)
    (cookieToken authHeader : Option String) : AuthOutcome :=
  if ((extractToken cookieToken authHeader).getD "") = "" then
    .unauthorized "Unauthorized: No token provided."
  else
    match verify ((extractToken cookieToken authHeader).getD "") with
    | none => .unauthorized "Unauthorized: Invalid or expired token."
    | some decodedId => lookupOutcome emps decodedId

/-- A route guarded by the middleware (e.g. `router.post("/",
authenticateUser, createEvent)` in src/unnamed/part_006): on an
unauthorized outcome the response is 401 and the handler never runs; on
success the handler runs on the store with the attached user. -/
def runProtected {σ : Type} (verify : String → Option String)
    (emps : List Employee) (cookieToken authHeader : Option String)
    (handler : AuthUser → σ → σ × Nat) (s : σ) : σ × Nat :=
  match authenticateUser verify emps cookieToken authHeader with
  | .unauthorized _ => (s, 401)
  | .proceed u => handler u s

/-- Modelled from the spec: `eventController.js` — the `confirmRSVP`
handler that src/unnamed/part_006 line 52 registers on
`POST /:id/rsvp` — is not under `src/`; only its route registration and
its frontend callers are.  Spec §4.2: "RSVP / un-RSVP: appends/removes
an identifier from attendees; no slot-capacity enforcement observed, no
duplicate-prevention transaction (check-then-act race possible)."  So:
look the event up by id and unconditionally append the caller's
identifier to `attendees`, with no slot or duplicate check. -/
def confirmRSVP (store : List Event) (eventId identifier : String) :
    Nat × List Event :=
  match store.find? (fun e => e.id == eventId) with
  | none => (404, store)
  | some _ =>
      (200,
       store.map (fun e =>
         if e.id == eventId then { e with attendees := e.attendees ++ [identifier] }
         else e))

/-- A row of the compiled-report payload that `fetchReport`
(`frontend/src/components/Reports/ReportsHome.js`) consumes: the fields
the reduce reads from each element of `response.data`.  `team = ""` and
`eventName = ""` play the JS-falsy (missing) values; `totalBudget =
none` plays a value on which `Number(x) || 0` yields 0. -/
structure ReportEvent where
  year : Nat
  eventType : String
  team : String
  eventName : String
  totalBudget : Option Int
deriving DecidableEq

/-- An aggregated group produced by the `fetchReport` reduce. -/
structure ReportRow where
  year : Nat
  team : String
  eventType : String
  eventCount : Nat
  eventNames : List String
  totalBudget : Int
deriving DecidableEq

/-- The grouping key of an input element.  The JS reduce keys its
accumulator object by the template string `` `${cur.year}-${cur.eventType}` ``;
for the schema's event types ("firm-wide", "limited-entry",
"team-specific" — none starting with a digit) that string determines
and is determined by the pair `(year, eventType)`. -/
def rkey (e : ReportEvent) : Nat × String := (e.year, e.eventType)

/-- The grouping key of an output row. -/
def rowKey (r : ReportRow) : Nat × String := (r.year, r.eventType)

/-- The per-element mutation of `acc[key]`: `eventCount += 1`,
`totalBudget += Number(cur.totalBudget) || 0`, and `eventNames.push`
when `cur.eventName` is truthy. -/
def bumpRow (r : ReportRow) (cur : ReportEvent) : ReportRow :=
  { r with
    eventCount := r.eventCount + 1,
    totalBudget := r.totalBudget + cur.totalBudget.getD 0,
    eventNames :=
      if cur.eventName = "" then r.eventNames else r.eventNames ++ [cur.eventName] }

/-- The fresh group the reduce creates on a new key: count 0, budget 0,
no names, `team: cur.team || 'N/A'` — it is bumped immediately after. -/
def newRow (cur : ReportEvent) : ReportRow :=
  { year := cur.year,
    team := if cur.team = "" then "N/A" else cur.team,
    eventType := cur.eventType,
    eventCount := 0,
    eventNames := [],
    totalBudget := 0 }

/-- One step of the reduce.  A JS object keyed by strings preserves key
insertion order, so the accumulator is an ordered list of rows: an
existing group is updated in place, a new group is appended. -/
def reportStep (acc : List ReportRow) (cur : ReportEvent) : List ReportRow :=
  if acc.any (fun r => rowKey r = rkey cur) then
    acc.map (fun r => if rowKey r = rkey cur then bumpRow r cur else r)
  else
    acc ++ [bumpRow (newRow cur) cur]

/-- Embeds `response.data.reduce(...)` followed by `Object.values`: the
aggregated rows of the compiled report, in first-appearance order of
their keys. -/
def compiledReportAgg (events : List ReportEvent) : List ReportRow :=
  events.foldl reportStep []

/-- The number of input elements sharing a grouping key. -/
def countKey (k : Nat × String) (l : List ReportEvent) : Nat :=
  (l.filter (fun e => rkey e = k)).length

/-- The summed budget (`Number(x) || 0` per element) of a grouping key. -/
def sumKey (k : Nat × String) (l : List ReportEvent) : Int :=
  ((l.filter (fun e => rkey e = k)).map (fun e => e.totalBudget.getD 0)).sum

/-- A concrete task used by several witnesses. -/
def cTask : Task :=
  { id := "0123456789abcdef01234567", taskName := "Book venue",
    description := "Reserve the hall", eventName := "Gala",
    eventID := "0123456789abcdef01234567", status := "Pending",
    budget := none, creator := "boss@x.com", assignee := "emp@x.com",
    deadline := none, comments := [], createdAt := 0 }

/-- A concrete limited-entry event with a single remaining slot. -/
def limitedEvent : Event :=
  { id := "aaaaaaaaaaaaaaaaaaaaaaaa", eventName := "Gala",
    eventType := "limited-entry", date := none, venue := none,
    description := "Annual gala", availableSlots := some 1,
    ticketPrice := some 100, totalBudget := some 1000, attendees := [],
    team := "", isPaid := true, creator := "boss@x.com" }

/-- The three ways a request fails authentication: a falsy token (absent
cookie and header, or an empty extraction), a token the verifier
rejects (malformed, bad signature or expired), or a verified token
whose decoded id matches no stored employee. -/
def authFails (verify : String → Option String) (emps : List Employee)
    (cookieToken authHeader : Option String) : Prop :=
  ((extractToken cookieToken authHeader).getD "") = "" ∨
  (∃ tok, extractToken cookieToken authHeader = some tok ∧ tok ≠ "" ∧
     verify tok = none) ∨
  (∃ tok i, extractToken cookieToken authHeader = some tok ∧ tok ≠ "" ∧
     verify tok = some i ∧ emps.find? (fun u => u.id == i) = none)

/-- A concrete task for the pagination witness: 25 tasks of one
creator, with deadlines chosen against creation order so that the sort
actually reorders. -/
def mkTask (n : Nat) : Task :=
  { id := "0123456789abcdef01234567", taskName := "task",
    description := "work", eventName := "Gala",
    eventID := "0123456789abcdef01234567", status := "Pending",
    budget := none, creator := "boss@x.com", assignee := "emp@x.com",
    deadline := some (100 - n), comments := [], createdAt := n }

/-- Twenty-five tasks created by one creator. -/
def store25 : List Task := (List.range 25).map mkTask

/-- Invariant of the compiled-report reduce after some prefix of the
input has been processed: group keys are pairwise distinct, every
accumulated row carries the exact count and budget sum of its key over
the processed prefix, and every processed element has a row. -/
def reportInv (acc : List ReportRow) (processed : List ReportEvent) : Prop :=
  (acc.map rowKey).Nodup ∧
  (∀ r ∈ acc, r.eventCount = countKey (rowKey r) processed ∧
              r.totalBudget = sumKey (rowKey r) processed) ∧
  (∀ e ∈ processed, ∃ r ∈ acc, rowKey r = rkey e)

/-- First event of the worked example in the spec. -/
def rEvent1 : ReportEvent :=
  { year := 2024, eventType := "firm-wide", team := "", eventName := "",
    totalBudget := some 1000 }

/-- Second event of the worked example in the spec. -/
def rEvent2 : ReportEvent :=
  { year := 2024, eventType := "firm-wide", team := "", eventName := "",
    totalBudget := some 500 }

/-- The single row the worked example compiles to. -/
def rRow2024 : ReportRow :=
  { year := 2024, team := "N/A", eventType := "firm-wide", eventCount := 2,
    eventNames := [], totalBudget := 1500 }

/-! Helper lemmas shared by several claims. -/

/-- Updating the documents a predicate selects, with an update that
preserves the predicate, commutes with `find?`. -/
theorem find?_map_update {α : Type} (p : α → Bool) (f : α → α)
    (hp : ∀ x, p (f x) = p x) (l : List α) :
    (l.map (fun u => if p u then f u else u)).find? p = (l.find? p).map f := by
  induction l with
  | nil => rfl
  | cons u rest ih =>
      by_cases h : p u
      · simp [List.find?_cons, h, hp]
      · simp [List.find?_cons, h, hp, ih]

/-- Every status value of the schema enum is a nonempty string. -/
theorem statusEnum_nonempty : ∀ v ∈ statusEnum, v ≠ "" := by decide

/-- A valid object id is nonempty (it has 24 characters). -/
theorem valid_id_nonempty (s : String) (h : isValidObjectId s = true) : s ≠ "" := by
  intro he
  subst he
  simp [isValidObjectId] at h

/-- A nonempty optional string is not JS-falsy. -/
theorem strFalsy_some (s : String) (h : s ≠ "") : strFalsy (some s) = false := by
  simpa [strFalsy] using h

/-- C2: for every existing task and any two status values of the enum
{Pending, In Progress, Completed}, updating the status twice stores
exactly the last supplied value, whatever the current status was and
whatever the direction of the transition — both calls answer 200 and
nothing is rejected. -/
theorem updateTaskStatus_stores_last_value
    (store : List Task) (t : Task) (v1 v2 : String)
    (hfind : findTask store t.id = some t)
    (hvalid : isValidObjectId t.id = true)
    (h1 : v1 ∈ statusEnum) (h2 : v2 ∈ statusEnum) :
    (updateTaskStatus (some t.id) (some v1) store).code = 200 ∧
    (updateTaskStatus (some t.id) (some v2)
        (updateTaskStatus (some t.id) (some v1) store).store).code = 200 ∧
    (updateTaskStatus (some t.id) (some v2)
        (updateTaskStatus (some t.id) (some v1) store).store).task
      = some (setStatus t v2) ∧
    findTask (updateTaskStatus (some t.id) (some v2)
        (updateTaskStatus (some t.id) (some v1) store).store).store t.id
      = some (setStatus t v2) := by
  have hid : t.id ≠ "" := valid_id_nonempty t.id hvalid
  have hv1 : v1 ≠ "" := statusEnum_nonempty v1 h1
  have hv2 : v2 ≠ "" := statusEnum_nonempty v2 h2
  have hmap1 : findTask (store.map (fun u => if u.id == t.id then setStatus u v1 else u)) t.id
      = some (setStatus t v1) := by
    unfold findTask at hfind ⊢
    rw [find?_map_update (fun u => u.id == t.id) (fun u => setStatus u v1)
      (fun _ => rfl) store, hfind]
    rfl
  have r1eq : updateTaskStatus (some t.id) (some v1) store
      = { code := 200, task := some (setStatus t v1),
          store := store.map (fun u => if u.id == t.id then setStatus u v1 else u) } := by
    unfold updateTaskStatus findByIdAndUpdateStatus
    rw [strFalsy_some t.id hid, strFalsy_some v1 hv1]
    simp [hvalid, hfind]
  rw [r1eq]
  have hmap2 : findTask (((store.map (fun u => if u.id == t.id then setStatus u v1 else u)).map
        (fun u => if u.id == t.id then setStatus u v2 else u))) t.id
      = some (setStatus (setStatus t v1) v2) := by
    unfold findTask at hmap1 ⊢
    rw [find?_map_update (fun u => u.id == t.id) (fun u => setStatus u v2)
      (fun _ => rfl) _, hmap1]
    rfl
  have r2eq : updateTaskStatus (some t.id) (some v2)
        (store.map (fun u => if u.id == t.id then setStatus u v1 else u))
      = { code := 200, task := some (setStatus (setStatus t v1) v2),
          store := (store.map (fun u => if u.id == t.id then setStatus u v1 else u)).map
            (fun u => if u.id == t.id then setStatus u v2 else u) } := by
    unfold updateTaskStatus findByIdAndUpdateStatus
    simp only [Option.getD_some]
    rw [strFalsy_some t.id hid, strFalsy_some v2 hv2,
      if_neg (by decide : ¬((false || false) = true)), hvalid,
      if_neg (by decide : ¬((!true) = true)), hmap1]
  rw [r2eq]
  exact ⟨rfl, rfl, rfl, hmap2⟩

/-- Witness for C2 at a concrete reverse transition
(Completed, then back to In Progress) on a Pending task. -/
theorem updateTaskStatus_stores_last_value_witness :
    (updateTaskStatus (some cTask.id) (some "Completed") [cTask]).code = 200 ∧
    (updateTaskStatus (some cTask.id) (some "In Progress")
        (updateTaskStatus (some cTask.id) (some "Completed") [cTask]).store).code = 200 ∧
    (updateTaskStatus (some cTask.id) (some "In Progress")
        (updateTaskStatus (some cTask.id) (some "Completed") [cTask]).store).task
      = some (setStatus cTask "In Progress") ∧
    findTask (updateTaskStatus (some cTask.id) (some "In Progress")
        (updateTaskStatus (some cTask.id) (some "Completed") [cTask]).store).store cTask.id
      = some (setStatus cTask "In Progress") :=
  updateTaskStatus_stores_last_value [cTask] cTask "Completed" "In Progress"
    (by decide) (by decide) (by decide) (by decide)

/-- C10: the status update performs no membership check against the
schema enum — for every existing task and every nonempty status string,
including strings outside {Pending, In Progress, Completed}, the call
answers 200 and stores exactly that string. -/
theorem updateTaskStatus_no_enum_check
    (store : List Task) (t : Task) (v : String)
    (hfind : findTask store t.id = some t)
    (hvalid : isValidObjectId t.id = true)
    (hv : v ≠ "") :
    (updateTaskStatus (some t.id) (some v) store).code = 200 ∧
    (updateTaskStatus (some t.id) (some v) store).task = some (setStatus t v) ∧
    findTask (updateTaskStatus (some t.id) (some v) store).store t.id
      = some (setStatus t v) ∧
    (findTask (updateTaskStatus (some t.id) (some v) store).store t.id).map Task.status
      = some v := by
  have hid : t.id ≠ "" := valid_id_nonempty t.id hvalid
  have hmap : findTask (store.map (fun u => if u.id == t.id then setStatus u v else u)) t.id
      = some (setStatus t v) := by
    unfold findTask at hfind ⊢
    rw [find?_map_update (fun u => u.id == t.id) (fun u => setStatus u v)
      (fun _ => rfl) store, hfind]
    rfl
  have req : updateTaskStatus (some t.id) (some v) store
      = { code := 200, task := some (setStatus t v),
          store := store.map (fun u => if u.id == t.id then setStatus u v else u) } := by
    unfold updateTaskStatus findByIdAndUpdateStatus
    rw [strFalsy_some t.id hid, strFalsy_some v hv]
    simp [hvalid, hfind]
  rw [req]
  exact ⟨rfl, rfl, hmap, by rw [hmap]; rfl⟩

/-- Witness for C10 at the out-of-enum status "Archived"; the final
conjunct records that "Archived" is indeed outside the schema enum. -/
theorem updateTaskStatus_no_enum_check_witness :
    ((updateTaskStatus (some cTask.id) (some "Archived") [cTask]).code = 200 ∧
     (updateTaskStatus (some cTask.id) (some "Archived") [cTask]).task
        = some (setStatus cTask "Archived") ∧
     findTask (updateTaskStatus (some cTask.id) (some "Archived") [cTask]).store cTask.id
        = some (setStatus cTask "Archived") ∧
     (findTask (updateTaskStatus (some cTask.id) (some "Archived") [cTask]).store
        cTask.id).map Task.status = some "Archived") ∧
    "Archived" ∉ statusEnum :=
  ⟨updateTaskStatus_no_enum_check [cTask] cTask "Archived"
      (by decide) (by decide) (by decide),
   by decide⟩

/-- C7: the full error contract of the status update — 400 with the
store untouched when the id or status is missing/empty, 400 with the
store untouched when the id is not a valid ObjectId, 404 when no task
matches, and 200 with the updated document on success. -/
theorem updateTaskStatus_error_contract
    (store : List Task) (taskId status : Option String) :
    ((strFalsy taskId || strFalsy status) = true →
       (updateTaskStatus taskId status store).code = 400 ∧
       (updateTaskStatus taskId status store).store = store ∧
       (updateTaskStatus taskId status store).task = none) ∧
    ((strFalsy taskId || strFalsy status) = false →
       isValidObjectId (taskId.getD "") = false →
       (updateTaskStatus taskId status store).code = 400 ∧
       (updateTaskStatus taskId status store).store = store ∧
       (updateTaskStatus taskId status store).task = none) ∧
    ((strFalsy taskId || strFalsy status) = false →
       isValidObjectId (taskId.getD "") = true →
       findTask store (taskId.getD "") = none →
       (updateTaskStatus taskId status store).code = 404 ∧
       (updateTaskStatus taskId status store).store = store) ∧
    (∀ t, (strFalsy taskId || strFalsy status) = false →
       isValidObjectId (taskId.getD "") = true →
       findTask store (taskId.getD "") = some t →
       (updateTaskStatus taskId status store).code = 200 ∧
       (updateTaskStatus taskId status store).task
         = some (setStatus t (status.getD ""))) := by
  refine ⟨?_, ?_, ?_, ?_⟩
  · intro h
    unfold updateTaskStatus
    rw [h]
    exact ⟨rfl, rfl, rfl⟩
  · intro h hv
    unfold updateTaskStatus
    rw [h, hv]
    exact ⟨rfl, rfl, rfl⟩
  · intro h hv hf
    unfold updateTaskStatus findByIdAndUpdateStatus
    rw [h, hv, hf]
    exact ⟨rfl, rfl⟩
  · intro t h hv hf
    unfold updateTaskStatus findByIdAndUpdateStatus
    rw [h, hv, hf]
    exact ⟨rfl, rfl⟩

/-- Witness for C7, exercising all four branches: a missing status, a
malformed id, an id that matches no task, and a successful update. -/
theorem updateTaskStatus_error_contract_witness :
    ((updateTaskStatus (some cTask.id) none [cTask]).code = 400 ∧
     (updateTaskStatus (some cTask.id) none [cTask]).store = [cTask]) ∧
    ((updateTaskStatus (some "not-an-id") (some "Pending") [cTask]).code = 400 ∧
     (updateTaskStatus (some "not-an-id") (some "Pending") [cTask]).store = [cTask]) ∧
    ((updateTaskStatus (some "ffffffffffffffffffffffff") (some "Pending") [cTask]).code
        = 404) ∧
    ((updateTaskStatus (some cTask.id) (some "Completed") [cTask]).code = 200 ∧
     (updateTaskStatus (some cTask.id) (some "Completed") [cTask]).task
        = some (setStatus cTask "Completed")) := by
  refine ⟨?_, ?_, ?_, ?_⟩
  · have h := (updateTaskStatus_error_contract [cTask] (some cTask.id) none).1 (by decide)
    exact ⟨h.1, h.2.1⟩
  · have h := (updateTaskStatus_error_contract [cTask] (some "not-an-id")
      (some "Pending")).2.1 (by decide) (by decide)
    exact ⟨h.1, h.2.1⟩
  · exact ((updateTaskStatus_error_contract [cTask] (some "ffffffffffffffffffffffff")
      (some "Pending")).2.2.1 (by decide) (by decide) (by decide)).1
  · exact (updateTaskStatus_error_contract [cTask] (some cTask.id)
      (some "Completed")).2.2.2 cTask (by decide) (by decide) (by decide)

/-- C1: RSVP appends unconditionally — for every stored event (whatever
its type or remaining slots) and every identifier, two RSVP calls both
answer 200 and append the identifier twice, so an identifier absent
before ends with exactly two occurrences: RSVP is not idempotent and
enforces no slot capacity. -/
theorem confirmRSVP_not_idempotent
    (store : List Event) (e : Event) (x : String)
    (hfind : store.find? (fun v => v.id == e.id) = some e) :
    (confirmRSVP store e.id x).1 = 200 ∧
    (confirmRSVP (confirmRSVP store e.id x).2 e.id x).1 = 200 ∧
    (confirmRSVP (confirmRSVP store e.id x).2 e.id x).2.find? (fun v => v.id == e.id)
      = some { e with attendees := e.attendees ++ [x, x] } ∧
    (e.attendees ++ [x, x]).count x = e.attendees.count x + 2 ∧
    (x ∉ e.attendees → (e.attendees ++ [x, x]).count x = 2) := by
  have hf : ∀ l : List Event,
      (l.map (fun v =>
          if v.id == e.id then { v with attendees := v.attendees ++ [x] } else v)).find?
        (fun v => v.id == e.id)
      = (l.find? (fun v => v.id == e.id)).map
          (fun v => ({ v with attendees := v.attendees ++ [x] } : Event)) :=
    fun l => find?_map_update (fun v => v.id == e.id)
      (fun v => { v with attendees := v.attendees ++ [x] }) (fun _ => rfl) l
  have r1 : confirmRSVP store e.id x
      = (200, store.map (fun v =>
          if v.id == e.id then { v with attendees := v.attendees ++ [x] } else v)) := by
    unfold confirmRSVP
    rw [hfind]
  have hfind1 : (store.map (fun v =>
        if v.id == e.id then { v with attendees := v.attendees ++ [x] } else v)).find?
        (fun v => v.id == e.id)
      = some { e with attendees := e.attendees ++ [x] } := by
    rw [hf, hfind]
    rfl
  have r2 : confirmRSVP (store.map (fun v =>
        if v.id == e.id then { v with attendees := v.attendees ++ [x] } else v)) e.id x
      = (200, (store.map (fun v =>
          if v.id == e.id then { v with attendees := v.attendees ++ [x] } else v)).map
          (fun v => if v.id == e.id then { v with attendees := v.attendees ++ [x] } else v)) := by
    unfold confirmRSVP
    rw [hfind1]
  have hfind2 : ((store.map (fun v =>
        if v.id == e.id then { v with attendees := v.attendees ++ [x] } else v)).map
        (fun v => if v.id == e.id then { v with attendees := v.attendees ++ [x] } else v)).find?
        (fun v => v.id == e.id)
      = some { e with attendees := e.attendees ++ [x, x] } := by
    rw [hf, hfind1]
    simp [List.append_assoc]
  have hcount : (e.attendees ++ [x, x]).count x = e.attendees.count x + 2 := by
    simp [List.count_append]
  refine ⟨by rw [r1], ?_, ?_, hcount, ?_⟩
  · rw [r1]
    show (confirmRSVP _ e.id x).1 = 200
    rw [r2]
  · rw [r1]
    show (confirmRSVP _ e.id x).2.find? _ = _
    rw [r2]
    exact hfind2
  · intro hx
    rw [hcount, List.count_eq_zero.mpr hx]

/-- Witness for C1 on a limited-entry event with one remaining slot and
a fresh identifier. -/
theorem confirmRSVP_not_idempotent_witness :
    (confirmRSVP [limitedEvent] limitedEvent.id "emp@x.com").1 = 200 ∧
    (confirmRSVP (confirmRSVP [limitedEvent] limitedEvent.id "emp@x.com").2
        limitedEvent.id "emp@x.com").1 = 200 ∧
    (confirmRSVP (confirmRSVP [limitedEvent] limitedEvent.id "emp@x.com").2
        limitedEvent.id "emp@x.com").2.find? (fun v => v.id == limitedEvent.id)
      = some { limitedEvent with attendees := limitedEvent.attendees ++ ["emp@x.com", "emp@x.com"] } ∧
    (limitedEvent.attendees ++ ["emp@x.com", "emp@x.com"]).count "emp@x.com"
      = limitedEvent.attendees.count "emp@x.com" + 2 ∧
    ("emp@x.com" ∉ limitedEvent.attendees →
      (limitedEvent.attendees ++ ["emp@x.com", "emp@x.com"]).count "emp@x.com" = 2) :=
  confirmRSVP_not_idempotent [limitedEvent] limitedEvent "emp@x.com" (by decide)

/-- C5: on any authentication failure — absent/malformed/expired
credential or an unknown decoded identifier — the middleware answers
with an unauthorized outcome and a guarded route answers 401 with the
store untouched, for every downstream handler. -/
theorem auth_failure_yields_401 {σ : Type}
    (verify : String → Option String) (emps : List Employee)
    (cookieToken authHeader : Option String)
    (h : authFails verify emps cookieToken authHeader) :
    (∃ msg, authenticateUser verify emps cookieToken authHeader
        = .unauthorized msg) ∧
    ∀ (handler : AuthUser → σ → σ × Nat) (s : σ),
      runProtected verify emps cookieToken authHeader handler s = (s, 401) := by
  have hu : ∃ msg, authenticateUser verify emps cookieToken authHeader
      = .unauthorized msg := by
    unfold authenticateUser
    rcases h with h1 | ⟨tok, htok, hne, hv⟩ | ⟨tok, i, htok, hne, hv, hf⟩
    · rw [if_pos h1]
      exact ⟨_, rfl⟩
    · rw [htok]
      simp only [Option.getD_some]
      rw [if_neg hne, hv]
      exact ⟨_, rfl⟩
    · rw [htok]
      simp only [Option.getD_some]
      rw [if_neg hne, hv]
      show ∃ msg, lookupOutcome emps i = .unauthorized msg
      unfold lookupOutcome
      rw [hf]
      exact ⟨_, rfl⟩
  refine ⟨hu, ?_⟩
  intro handler s
  obtain ⟨msg, hmsg⟩ := hu
  unfold runProtected
  rw [hmsg]

/-- Witness for C5: no cookie, no Authorization header, a rejecting
verifier, an empty employee store, and a handler that would mutate the
store — the response is 401 and the store is unchanged. -/
theorem auth_failure_yields_401_witness :
    runProtected (fun _ => none) ([] : List Employee) none none
      (fun _ s => (s + 1, 200)) 0 = (0, 401) :=
  (auth_failure_yields_401 (fun _ => none) [] none none
    (Or.inl (by decide))).2 (fun _ s => (s + 1, 200)) 0

/-- Semantics of `getTasksByAssignee` for a present email: 404 on an
empty result, 200 with the sorted matches otherwise. -/
theorem getTasksByAssignee_eq (tstore : List Task) (email : String)
    (hemail : email ≠ "") :
    getTasksByAssignee (some email) tstore =
      (if (sortTasks (tstore.filter (fun t => t.assignee == email))).length = 0 then
        { code := 404, tasks := [], message := "No tasks found for this employee" }
      else
        { code := 200, tasks := sortTasks (tstore.filter (fun t => t.assignee == email)),
          message := "" }) := by
  unfold getTasksByAssignee
  rw [strFalsy_some email hemail, if_neg (by decide : ¬(false = true))]
  simp only [Option.getD_some, beq_iff_eq]

/-- Semantics of `getEventsByCreator` for a present email: 404 on an
empty page, 200 with the projected page otherwise. -/
theorem getEventsByCreator_eq (estore : List Event) (email : String)
    (pageParam : Option Nat) (hemail : email ≠ "") :
    getEventsByCreator (some email) pageParam estore =
      (if ((((sortEventsByDate (estore.filter (fun e => e.creator == email))).drop
            ((effPage pageParam - 1) * 10)).take 10).map
            (fun e => (e.id, e.eventName))).length = 0 then
        { code := 404, events := [], message := "No events found for this creator" }
      else
        { code := 200,
          events := (((sortEventsByDate (estore.filter (fun e => e.creator == email))).drop
            ((effPage pageParam - 1) * 10)).take 10).map (fun e => (e.id, e.eventName)),
          message := "" }) := by
  unfold getEventsByCreator
  rw [strFalsy_some email hemail, if_neg (by decide : ¬(false = true))]
  simp only [Option.getD_some, beq_iff_eq]

/-- C9: an empty query result is a 404, not an empty 200 — zero tasks
for an assignee yields 404 "No tasks found for this employee", zero
events for a creator yields 404 "No events found for this creator",
and neither endpoint ever answers 200 with an empty array. -/
theorem empty_result_is_404
    (tstore : List Task) (estore : List Event) (email : String)
    (pageParam : Option Nat) (hemail : email ≠ "") :
    (tstore.filter (fun t => t.assignee == email) = [] →
       getTasksByAssignee (some email) tstore
         = { code := 404, tasks := [], message := "No tasks found for this employee" }) ∧
    (estore.filter (fun e => e.creator == email) = [] →
       getEventsByCreator (some email) pageParam estore
         = { code := 404, events := [], message := "No events found for this creator" }) ∧
    ((getTasksByAssignee (some email) tstore).code = 200 →
       (getTasksByAssignee (some email) tstore).tasks ≠ []) ∧
    ((getEventsByCreator (some email) pageParam estore).code = 200 →
       (getEventsByCreator (some email) pageParam estore).events ≠ []) := by
  refine ⟨?_, ?_, ?_, ?_⟩
  · intro h
    rw [getTasksByAssignee_eq tstore email hemail, h]
    rfl
  · intro h
    rw [getEventsByCreator_eq estore email pageParam hemail, h]
    simp [sortEventsByDate]
  · intro h200
    rw [getTasksByAssignee_eq tstore email hemail] at h200 ⊢
    by_cases hl : (sortTasks (tstore.filter (fun t => t.assignee == email))).length = 0
    · rw [if_pos hl] at h200
      exact absurd h200 (by decide)
    · rw [if_neg hl]
      intro hnil
      have h2 : sortTasks (tstore.filter (fun t => t.assignee == email)) = [] := hnil
      exact hl (by rw [h2]; rfl)
  · intro h200
    rw [getEventsByCreator_eq estore email pageParam hemail] at h200 ⊢
    by_cases hl : ((((sortEventsByDate (estore.filter (fun e => e.creator == email))).drop
        ((effPage pageParam - 1) * 10)).take 10).map (fun e => (e.id, e.eventName))).length = 0
    · rw [if_pos hl] at h200
      exact absurd h200 (by decide)
    · rw [if_neg hl]
      intro hnil
      have h2 : (((sortEventsByDate (estore.filter (fun e => e.creator == email))).drop
          ((effPage pageParam - 1) * 10)).take 10).map (fun e => (e.id, e.eventName)) = [] := hnil
      exact hl (by rw [h2]; rfl)

/-- Witness for C9: an employee with no assigned tasks and a creator
with no created events, over singleton stores owned by someone else. -/
theorem empty_result_is_404_witness :
    (getTasksByAssignee (some "ghost@x.com") [cTask]
       = { code := 404, tasks := [], message := "No tasks found for this employee" }) ∧
    (getEventsByCreator (some "ghost@x.com") none [limitedEvent]
       = { code := 404, events := [], message := "No events found for this creator" }) :=
  ⟨(empty_result_is_404 [cTask] [limitedEvent] "ghost@x.com" none (by decide)).1
      (by decide),
   (empty_result_is_404 [cTask] [limitedEvent] "ghost@x.com" none (by decide)).2.1
      (by decide)⟩

/-- C8 counterexample: the claim says every supplied status value acts
as an equality filter, but a status outside the schema enum (here
"Cancelled") is dropped from the query — the endpoint returns the whole
store, not the (empty) set of tasks whose status equals "Cancelled". -/
theorem filterTasks_status_gate_counterexample :
    filterTasks (some "Cancelled") none [cTask] = [cTask] ∧
    [cTask].filter (fun t => t.status == "Cancelled") = [] := by decide

/-- C8 (amended): the filter endpoint is an equality filter for a
supplied status IN the enum {Pending, In Progress, Completed} and for a
supplied nonempty assignee, both constraints combining; a status
outside the enum imposes no constraint (as if absent), and absent
parameters impose none. -/
theorem filterTasks_equality_filter
    (status assignee : Option String) (store : List Task) :
    (∀ s, status = some s → s ∈ statusEnum → assignee = none →
       filterTasks status assignee store
         = store.filter (fun t => t.status == s)) ∧
    (∀ a, assignee = some a → a ≠ "" → status = none →
       filterTasks status assignee store
         = store.filter (fun t => t.assignee == a)) ∧
    (∀ s a, status = some s → s ∈ statusEnum → assignee = some a → a ≠ "" →
       filterTasks status assignee store
         = store.filter (fun t => t.status == s && t.assignee == a)) ∧
    (∀ s, status = some s → s ∉ statusEnum →
       filterTasks status assignee store = filterTasks none assignee store) ∧
    (status = none → assignee = none → filterTasks status assignee store = store) := by
  refine ⟨?_, ?_, ?_, ?_, ?_⟩
  · intro s hs hmem ha
    subst hs; subst ha
    have hne := statusEnum_nonempty s hmem
    simp [filterTasks, hmem, hne]
  · intro a ha hane hs
    subst ha; subst hs
    simp [filterTasks, hane]
  · intro s a hs hmem ha hane
    subst hs; subst ha
    have hne := statusEnum_nonempty s hmem
    simp [filterTasks, hmem, hne, hane]
  · intro s hs hmem
    subst hs
    simp [filterTasks, hmem]
  · intro hs ha
    subst hs; subst ha
    simp [filterTasks]

/-- Witness for the amended C8 at a status inside the enum. -/
theorem filterTasks_equality_filter_witness :
    filterTasks (some "Pending") none [cTask]
      = [cTask].filter (fun t => t.status == "Pending") :=
  (filterTasks_equality_filter (some "Pending") none [cTask]).1 "Pending" rfl
    (by decide) rfl

/-- Success path of the assignee-facing comment endpoint: with a valid
id, a found task and nonempty fields, the call is a 201 that appends
the comment and returns the full updated document. -/
theorem comment_success_assignee (store : List Task) (t : Task)
    (a m : String) (now : Nat)
    (hfind : findTask store t.id = some t)
    (hvalid : isValidObjectId t.id = true) (ha : a ≠ "") (hm : m ≠ "") :
    addCommentToTask_Assignee t.id (some a) (some m) now store
      = { code := 201,
          task := some { t with comments := t.comments ++ [⟨a, m, now⟩] },
          store := appendComment store t.id ⟨a, m, now⟩ } := by
  unfold addCommentToTask_Assignee
  rw [hvalid, if_neg (by decide : ¬((!true) = true)),
    strFalsy_some a ha, strFalsy_some m hm,
    if_neg (by decide : ¬((false || false) = true)), hfind]
  rfl

/-- Success path of the creator/admin-facing comment endpoint. -/
theorem comment_success_admin (store : List Task) (t : Task)
    (a m : String) (now : Nat)
    (hfind : findTask store t.id = some t)
    (hvalid : isValidObjectId t.id = true) (ha : a ≠ "") (hm : m ≠ "") :
    addCommentToTask t.id (some a) (some m) now store
      = { code := 201,
          task := some { t with comments := t.comments ++ [⟨a, m, now⟩] },
          store := appendComment store t.id ⟨a, m, now⟩ } := by
  unfold addCommentToTask
  rw [strFalsy_some a ha, strFalsy_some m hm,
    if_neg (by decide : ¬((false || false) = true)),
    hvalid, if_neg (by decide : ¬((!true) = true)), hfind]
  rfl

/-- Appending a comment commutes with looking the task up. -/
theorem findTask_appendComment (store : List Task) (taskId : String)
    (c : TaskComment) :
    findTask (appendComment store taskId c) taskId
      = (findTask store taskId).map
          (fun u => ({ u with comments := u.comments ++ [c] } : Task)) := by
  unfold appendComment findTask
  exact find?_map_update (fun u => u.id == taskId)
    (fun u => { u with comments := u.comments ++ [c] }) (fun _ => rfl) store

/-- C4: appending comment (a1, m1) at time t1 and then (a2, m2) at time
t2 ≥ t1 to a task with no comments — through either comment endpoint —
yields comments [C1, C2] in insertion order, each an
{author, message, timestamp} record with non-decreasing timestamps, and
each call returns (201 with) the full updated task document. -/
theorem comment_append_in_order
    (store : List Task) (t : Task) (a1 m1 a2 m2 : String) (t1 t2 : Nat)
    (hfind : findTask store t.id = some t) (hempty : t.comments = [])
    (hvalid : isValidObjectId t.id = true)
    (ha1 : a1 ≠ "") (hm1 : m1 ≠ "") (ha2 : a2 ≠ "") (hm2 : m2 ≠ "")
    (ht : t1 ≤ t2) :
    ((addCommentToTask_Assignee t.id (some a1) (some m1) t1 store).code = 201 ∧
     (addCommentToTask_Assignee t.id (some a2) (some m2) t2
        (addCommentToTask_Assignee t.id (some a1) (some m1) t1 store).store).code = 201 ∧
     (addCommentToTask_Assignee t.id (some a2) (some m2) t2
        (addCommentToTask_Assignee t.id (some a1) (some m1) t1 store).store).task
       = some { t with comments := [⟨a1, m1, t1⟩, ⟨a2, m2, t2⟩] } ∧
     findTask (addCommentToTask_Assignee t.id (some a2) (some m2) t2
        (addCommentToTask_Assignee t.id (some a1) (some m1) t1 store).store).store t.id
       = some { t with comments := [⟨a1, m1, t1⟩, ⟨a2, m2, t2⟩] }) ∧
    ((addCommentToTask t.id (some a1) (some m1) t1 store).code = 201 ∧
     (addCommentToTask t.id (some a2) (some m2) t2
        (addCommentToTask t.id (some a1) (some m1) t1 store).store).code = 201 ∧
     (addCommentToTask t.id (some a2) (some m2) t2
        (addCommentToTask t.id (some a1) (some m1) t1 store).store).task
       = some { t with comments := [⟨a1, m1, t1⟩, ⟨a2, m2, t2⟩] } ∧
     findTask (addCommentToTask t.id (some a2) (some m2) t2
        (addCommentToTask t.id (some a1) (some m1) t1 store).store).store t.id
       = some { t with comments := [⟨a1, m1, t1⟩, ⟨a2, m2, t2⟩] }) ∧
    List.Chain' (fun c d : TaskComment => c.timestamp ≤ d.timestamp)
      [⟨a1, m1, t1⟩, ⟨a2, m2, t2⟩] := by
  have hfind1 : findTask (appendComment store t.id ⟨a1, m1, t1⟩) t.id
      = some { t with comments := t.comments ++ [⟨a1, m1, t1⟩] } := by
    rw [findTask_appendComment, hfind]
    rfl
  have hfind2 : findTask (appendComment (appendComment store t.id ⟨a1, m1, t1⟩)
        t.id ⟨a2, m2, t2⟩) t.id
      = some { t with comments := (t.comments ++ [⟨a1, m1, t1⟩]) ++ [⟨a2, m2, t2⟩] } := by
    rw [findTask_appendComment, hfind1]
    rfl
  have hlist : (t.comments ++ [(⟨a1, m1, t1⟩ : TaskComment)]) ++ [(⟨a2, m2, t2⟩ : TaskComment)]
      = [⟨a1, m1, t1⟩, ⟨a2, m2, t2⟩] := by
    rw [hempty]
    rfl
  have e1 := comment_success_assignee store t a1 m1 t1 hfind hvalid ha1 hm1
  have e2 := comment_success_assignee (appendComment store t.id ⟨a1, m1, t1⟩)
    { t with comments := t.comments ++ [⟨a1, m1, t1⟩] } a2 m2 t2 hfind1 hvalid ha2 hm2
  have f1 := comment_success_admin store t a1 m1 t1 hfind hvalid ha1 hm1
  have f2 := comment_success_admin (appendComment store t.id ⟨a1, m1, t1⟩)
    { t with comments := t.comments ++ [⟨a1, m1, t1⟩] } a2 m2 t2 hfind1 hvalid ha2 hm2
  refine ⟨⟨?_, ?_, ?_, ?_⟩, ⟨?_, ?_, ?_, ?_⟩, ?_⟩
  · rw [e1]
  · simp only [e1, e2]
  · simp only [e1, e2, hlist]
  · simp only [e1, e2]
    rw [hfind2, hlist]
  · rw [f1]
  · simp only [f1, f2]
  · simp only [f1, f2, hlist]
  · simp only [f1, f2]
    rw [hfind2, hlist]
  · exact List.chain'_pair.mpr ht

/-- Witness for C4 on a concrete comment-free task and two comments at
times 5 and 9. -/
theorem comment_append_in_order_witness :
    (addCommentToTask_Assignee cTask.id (some "u2@x.com") (some "done") 9
        (addCommentToTask_Assignee cTask.id (some "u1@x.com") (some "hello") 5
          [cTask]).store).task
      = some { cTask with
          comments := [⟨"u1@x.com", "hello", 5⟩, ⟨"u2@x.com", "done", 9⟩] } :=
  (comment_append_in_order [cTask] cTask "u1@x.com" "hello" "u2@x.com" "done" 5 9
    (by decide) rfl (by decide) (by decide) (by decide) (by decide) (by decide)
    (by decide)).1.2.2.1

/-- Reduction of `effPage` on a positive explicit page. -/
theorem effPage_pos (p : Nat) (hp : 1 ≤ p) : effPage (some p) = p := by
  match p, hp with
  | Nat.succ n, _ => rfl

/-- C6: the creator task list sorts by (deadline asc, createdAt asc)
and serves page p as documents (p−1)·10 .. (p−1)·10+9 of the sorted
matches; with 25 matching tasks, page 2 is exactly the 10 tasks at
sorted positions 10..19 (tasks 11–20); the assignee list applies the
same sort and returns all matches with no pagination. -/
theorem creator_pagination
    (store : List Task) (email : String) (p : Nat)
    (hemail : email ≠ "") (hp : 1 ≤ p) :
    (getTasks (some email) (some p) store
       = { code := 200,
           tasks := ((sortTasks (store.filter (fun t => t.creator == email))).drop
             ((p - 1) * 10)).take 10,
           message := "" }) ∧
    List.Sorted taskLE (sortTasks (store.filter (fun t => t.creator == email))) ∧
    (sortTasks (store.filter (fun t => t.creator == email))).length
      = (store.filter (fun t => t.creator == email)).length ∧
    ((store.filter (fun t => t.creator == email)).length = 25 → p = 2 →
       (getTasks (some email) (some p) store).tasks.length = 10 ∧
       ∀ i, i < 10 →
         (getTasks (some email) (some p) store).tasks[i]?
           = (sortTasks (store.filter (fun t => t.creator == email)))[10 + i]?) ∧
    (store.filter (fun t => t.assignee == email) ≠ [] →
       getTasksByAssignee (some email) store
         = { code := 200,
             tasks := sortTasks (store.filter (fun t => t.assignee == email)),
             message := "" } ∧
       (getTasksByAssignee (some email) store).tasks.length
         = (store.filter (fun t => t.assignee == email)).length) := by
  have hlen : (sortTasks (store.filter (fun t => t.creator == email))).length
      = (store.filter (fun t => t.creator == email)).length :=
    (List.perm_insertionSort taskLE _).length_eq
  have hmain : getTasks (some email) (some p) store
      = { code := 200,
          tasks := ((sortTasks (store.filter (fun t => t.creator == email))).drop
            ((p - 1) * 10)).take 10,
          message := "" } := by
    unfold getTasks
    rw [strFalsy_some email hemail, if_neg (by decide : ¬(false = true))]
    simp only [Option.getD_some, effPage_pos p hp]
  refine ⟨hmain, List.sorted_insertionSort taskLE _, hlen, ?_, ?_⟩
  · intro h25 hp2
    subst hp2
    have hslen : (sortTasks (store.filter (fun t => t.creator == email))).length = 25 := by
      rw [hlen, h25]
    constructor
    · rw [hmain]
      show (((sortTasks (store.filter (fun t => t.creator == email))).drop 10).take 10).length = 10
      rw [List.length_take, List.length_drop, hslen]
      rfl
    · intro i hi
      rw [hmain]
      show (((sortTasks (store.filter (fun t => t.creator == email))).drop 10).take 10)[i]? = _
      rw [List.getElem?_take, if_pos hi, List.getElem?_drop]
  · intro hne
    have hlen2 : (sortTasks (store.filter (fun t => t.assignee == email))).length
        = (store.filter (fun t => t.assignee == email)).length :=
      (List.perm_insertionSort taskLE _).length_eq
    have hnz : ¬(sortTasks (store.filter (fun t => t.assignee == email))).length = 0 := by
      rw [hlen2]
      intro h0
      exact hne (List.length_eq_zero.mp h0)
    have heq : getTasksByAssignee (some email) store
        = { code := 200,
            tasks := sortTasks (store.filter (fun t => t.assignee == email)),
            message := "" } := by
      rw [getTasksByAssignee_eq store email hemail, if_neg hnz]
    exact ⟨heq, by rw [heq]; exact hlen2⟩

/-- Witness for C6: page 2 of the 25-task creator store has exactly 10
tasks and the endpoint answers 200. -/
theorem creator_pagination_witness :
    (getTasks (some "boss@x.com") (some 2) store25).code = 200 ∧
    (getTasks (some "boss@x.com") (some 2) store25).tasks.length = 10 := by
  have h := creator_pagination store25 "boss@x.com" 2 (by decide) (by decide)
  refine ⟨by rw [h.1], ?_⟩
  exact (h.2.2.2.1 (by decide) rfl).1

/-- Processing one more element adds one to the count of its key. -/
theorem countKey_append (k : Nat × String) (p : List ReportEvent)
    (cur : ReportEvent) :
    countKey k (p ++ [cur]) = countKey k p + (if rkey cur = k then 1 else 0) := by
  by_cases h : rkey cur = k
  · simp [countKey, List.filter_append, h]
  · simp [countKey, List.filter_append, h]

/-- Processing one more element adds its coerced budget to the sum of
its key. -/
theorem sumKey_append (k : Nat × String) (p : List ReportEvent)
    (cur : ReportEvent) :
    sumKey k (p ++ [cur])
      = sumKey k p + (if rkey cur = k then cur.totalBudget.getD 0 else 0) := by
  by_cases h : rkey cur = k
  · simp [sumKey, List.filter_append, h]
  · simp [sumKey, List.filter_append, h]

/-- A key no processed element carries has count and sum zero. -/
theorem countKey_sumKey_zero (k : Nat × String) (p : List ReportEvent)
    (h : ∀ e ∈ p, rkey e ≠ k) : countKey k p = 0 ∧ sumKey k p = 0 := by
  have hf : p.filter (fun e => rkey e = k) = [] :=
    List.filter_eq_nil_iff.mpr (fun a ha => by simp [h a ha])
  constructor
  · rw [countKey, hf]
    rfl
  · rw [sumKey, hf]
    rfl

/-- The map step of the present-key branch preserves every group key. -/
theorem rowKey_update (cur : ReportEvent) (r : ReportRow) :
    rowKey (if rowKey r = rkey cur then bumpRow r cur else r) = rowKey r := by
  by_cases h : rowKey r = rkey cur
  · rw [if_pos h]
    rfl
  · rw [if_neg h]

/-- One step of the reduce preserves the invariant. -/
theorem reportStep_inv (acc : List ReportRow) (p : List ReportEvent)
    (cur : ReportEvent) (h : reportInv acc p) :
    reportInv (reportStep acc cur) (p ++ [cur]) := by
  obtain ⟨hnd, hrows, hcov⟩ := h
  unfold reportStep
  by_cases hmem : ∃ r ∈ acc, rowKey r = rkey cur
  · have hany : acc.any (fun r => rowKey r = rkey cur) = true := by
      rw [List.any_eq_true]
      obtain ⟨r, hr, hk⟩ := hmem
      exact ⟨r, hr, by simp [hk]⟩
    rw [if_pos hany]
    refine ⟨?_, ?_, ?_⟩
    · rw [List.map_map]
      have hcomp : (rowKey ∘ fun r => if rowKey r = rkey cur then bumpRow r cur else r)
          = rowKey := funext (fun r => rowKey_update cur r)
      rw [hcomp]
      exact hnd
    · intro r' hr'
      rw [List.mem_map] at hr'
      obtain ⟨r, hr, rfl⟩ := hr'
      rw [rowKey_update cur r]
      by_cases hk : rowKey r = rkey cur
      · rw [if_pos hk]
        constructor
        · show (bumpRow r cur).eventCount = countKey (rowKey r) (p ++ [cur])
          rw [countKey_append, if_pos hk.symm]
          show r.eventCount + 1 = countKey (rowKey r) p + 1
          rw [(hrows r hr).1]
        · show (bumpRow r cur).totalBudget = sumKey (rowKey r) (p ++ [cur])
          rw [sumKey_append, if_pos hk.symm]
          show r.totalBudget + cur.totalBudget.getD 0
            = sumKey (rowKey r) p + cur.totalBudget.getD 0
          rw [(hrows r hr).2]
      · rw [if_neg hk]
        constructor
        · rw [countKey_append, if_neg (fun hc => hk hc.symm), Nat.add_zero]
          exact (hrows r hr).1
        · rw [sumKey_append, if_neg (fun hc => hk hc.symm), add_zero]
          exact (hrows r hr).2
    · intro e he
      rcases List.mem_append.mp he with he | he
      · obtain ⟨r, hr, hk⟩ := hcov e he
        refine ⟨if rowKey r = rkey cur then bumpRow r cur else r,
          List.mem_map_of_mem _ hr, ?_⟩
        rw [rowKey_update cur r]
        exact hk
      · have heq : e = cur := by simpa using he
        rw [heq]
        obtain ⟨r, hr, hk⟩ := hmem
        refine ⟨if rowKey r = rkey cur then bumpRow r cur else r,
          List.mem_map_of_mem _ hr, ?_⟩
        rw [rowKey_update cur r]
        exact hk
  · have hnone : ∀ r ∈ acc, rowKey r ≠ rkey cur :=
      fun r hr hk => hmem ⟨r, hr, hk⟩
    have hany : ¬(acc.any (fun r => rowKey r = rkey cur) = true) := by
      rw [List.any_eq_true]
      rintro ⟨r, hr, hk⟩
      exact hnone r hr (by simpa using hk)
    rw [if_neg hany]
    have hpkey : ∀ e ∈ p, rkey e ≠ rkey cur := by
      intro e he hk
      obtain ⟨r, hr, hrk⟩ := hcov e he
      exact hnone r hr (hrk.trans hk)
    have hzero := countKey_sumKey_zero (rkey cur) p hpkey
    refine ⟨?_, ?_, ?_⟩
    · rw [List.map_append]
      refine List.Nodup.append hnd (List.nodup_singleton _) ?_
      intro k hk1 hk2
      rw [List.mem_map] at hk1
      obtain ⟨r, hr, rfl⟩ := hk1
      have hk2' : rowKey r = rowKey (bumpRow (newRow cur) cur) := by simpa using hk2
      exact hnone r hr hk2'
    · intro r' hr'
      rcases List.mem_append.mp hr' with hr | hr
      · have hk : rowKey r' ≠ rkey cur := hnone r' hr
        constructor
        · rw [countKey_append, if_neg (fun hc => hk hc.symm), Nat.add_zero]
          exact (hrows r' hr).1
        · rw [sumKey_append, if_neg (fun hc => hk hc.symm), add_zero]
          exact (hrows r' hr).2
      · have heq : r' = bumpRow (newRow cur) cur := by simpa using hr
        subst heq
        constructor
        · show (bumpRow (newRow cur) cur).eventCount
            = countKey (rkey cur) (p ++ [cur])
          rw [countKey_append, hzero.1, if_pos rfl]
          rfl
        · show (bumpRow (newRow cur) cur).totalBudget
            = sumKey (rkey cur) (p ++ [cur])
          rw [sumKey_append, hzero.2, if_pos rfl]
          show (0 : Int) + cur.totalBudget.getD 0 = 0 + cur.totalBudget.getD 0
          rfl
    · intro e he
      rcases List.mem_append.mp he with he | he
      · obtain ⟨r, hr, hk⟩ := hcov e he
        exact ⟨r, List.mem_append.mpr (Or.inl hr), hk⟩
      · have heq : e = cur := by simpa using he
        rw [heq]
        exact ⟨bumpRow (newRow cur) cur,
          List.mem_append.mpr (Or.inr (by simp)), rfl⟩

/-- The invariant carries through the whole fold. -/
theorem foldl_reportStep_inv (rest : List ReportEvent) :
    ∀ acc p, reportInv acc p → reportInv (rest.foldl reportStep acc) (p ++ rest) := by
  induction rest with
  | nil =>
      intro acc p h
      simpa using h
  | cons cur rest ih =>
      intro acc p h
      have h3 := ih (reportStep acc cur) (p ++ [cur]) (reportStep_inv acc p cur h)
      simpa [List.append_assoc] using h3

/-- The invariant holds before anything is processed. -/
theorem reportInv_nil : reportInv [] [] := by
  refine ⟨List.nodup_nil, ?_, ?_⟩ <;> simp

/-- C3: the compiled report groups by (year, eventType) — output keys
are pairwise distinct, each row counts exactly the events sharing its
key and sums exactly their budgets, every event lands in some row —
and on the two worked-example events it is exactly one row
{year 2024, firm-wide, eventCount 2, totalBudget 1500}. -/
theorem compiledReport_groups_and_sums (events : List ReportEvent) :
    ((compiledReportAgg events).map rowKey).Nodup ∧
    (∀ r ∈ compiledReportAgg events,
       r.eventCount = countKey (rowKey r) events ∧
       r.totalBudget = sumKey (rowKey r) events) ∧
    (∀ e ∈ events, ∃ r ∈ compiledReportAgg events, rowKey r = rkey e) ∧
    compiledReportAgg [rEvent1, rEvent2] = [rRow2024] := by
  have h := foldl_reportStep_inv events [] [] reportInv_nil
  rw [List.nil_append] at h
  obtain ⟨h1, h2, h3⟩ := h
  exact ⟨h1, h2, h3, by decide⟩

/-- Witness for C3: the worked-example row carries the count 2 and sum
1500 of its (2024, firm-wide) key. -/
theorem compiledReport_groups_and_sums_witness :
    rRow2024.eventCount = countKey (rowKey rRow2024) [rEvent1, rEvent2] ∧
    rRow2024.totalBudget = sumKey (rowKey rRow2024) [rEvent1, rEvent2] :=
  (compiledReport_groups_and_sums [rEvent1, rEvent2]).2.1 rRow2024 (by decide)

end Orchestrate

